import Mathlib

/-!
Shallow embedding of the Flowpad core layer (note store, classifier,
AI gateway parsing, context capture) and proofs about its behaviour.

Timestamps are modelled as seconds since the Unix epoch (`Nat`).  The
source stores `new Date().toISOString()` strings; lexicographic order on
those strings agrees with chronological order, so `Nat` comparison is a
faithful model of every string comparison the source performs on them.
The SQLite `notes` table is modelled as a `List NoteRow`; `id` is the
table's PRIMARY KEY, so at most one row per id exists in any real store.
-/

/-- Number of seconds in one calendar day. -/
def secondsPerDay : Nat := 86400

/-- Calendar-day index of a timestamp as rendered by
`new Date(t).toISOString().split('T')[0]` and by SQLite `date(created_at)`
on the stored ISO string: both use the UTC day. -/
def utcDay (t : Nat) : Nat := t / secondsPerDay

/-- Modelled from the spec: the *local* calendar-day index of a timestamp,
for a fixed local-timezone offset `tz` in seconds (positive east of UTC).
The source never computes this; the spec's `getTodayNotes` sentence speaks
of "the calendar day of the call in local time", which this captures. -/
def localDay (tz : Int) (t : Nat) : Int := ((t : Int) + tz).fdiv (secondsPerDay : Int)

/-- Option-string version of the JavaScript `v || d` idiom: the empty
string is falsy, so it is replaced by the default just as `null` is. -/
def orElseFalsy (v : Option String) (d : String) : String :=
  match v with
  | some s => if s = "" then d else s
  | none => d

/-- Option-string version of the JavaScript `v || undefined` idiom: both
`null` and the empty string collapse to `undefined`. -/
def jsTruthyStr : Option String → Option String
  | some s => if s = "" then none else some s
  | none => none

/-- Captured environment context (`Context` in types.ts): all fields optional. -/
structure Context where
  app_name : Option String
  window_title : Option String
  url : Option String
deriving DecidableEq, Repr

/-- One row of the SQLite `notes` table.  `tags` models the serialized
JSON column: `none` is SQL NULL, `some l` is the JSON array `l` (the
JSON.stringify/JSON.parse round trip on string arrays is the identity,
so the column is modelled by the array itself). -/
structure NoteRow where
  id : String
  text : String
  created_at : Nat
  app_name : Option String
  window_title : Option String
  url : Option String
  project_hint : Option String
  type_hint : Option String
  tags : Option (List String)
  project_tag : Option String
  status : Option String
deriving DecidableEq, Repr

/-- The `Note` object returned to callers (types.ts), after `parseNoteRow`:
`tags` is always a materialized array and `status` is always populated. -/
structure Note where
  id : String
  text : String
  created_at : Nat
  app_name : Option String
  window_title : Option String
  url : Option String
  project_hint : Option String
  type_hint : Option String
  tags : List String
  project_tag : Option String
  status : String
deriving DecidableEq, Repr

/-- FlowpadDB.parseNoteRow: spreads the row, materializes `tags`
(`row.tags ? JSON.parse(row.tags) : []`), maps falsy `project_tag` to
`undefined`, and defaults falsy `status` to `'new'`. -/
def parseNoteRow (row : NoteRow) : Note :=
  { id := row.id, text := row.text, created_at := row.created_at,
    app_name := row.app_name, window_title := row.window_title, url := row.url,
    project_hint := row.project_hint, type_hint := row.type_hint,
    tags := row.tags.getD [],
    project_tag := jsTruthyStr row.project_tag,
    status := orElseFalsy row.status "new" }

/-- Boolean test that list `l` begins with the pattern `p`. -/
def startsWithCh : List Char → List Char → Bool
  | _, [] => true
  | [], _ :: _ => false
  | c :: cs, d :: ds => c == d && startsWithCh cs ds

/-- Boolean test that the pattern occurs contiguously somewhere in `l`
(JavaScript `t.match(/kw/)` for a literal keyword `kw`). -/
def hasInfixCh : List Char → List Char → Bool
  | [], sub => sub.isEmpty
  | l@(_ :: tl), sub => startsWithCh l sub || hasInfixCh tl sub

/-- Lower-cased character sequence of a string (`text.toLowerCase()`;
`Char.toLower` lowers ASCII letters and leaves CJK characters alone,
exactly what the classifier's keyword set needs). -/
def lcChars (s : String) : List Char := s.data.map Char.toLower

/-- Test whether the lowered text contains one literal keyword. -/
def containsKw (t : List Char) (kw : String) : Bool := hasInfixCh t kw.data

/-- Test whether the lowered text contains any keyword of the alternation
`t.match(/(kw1|kw2|...)/)`. -/
def containsAnyKw (t : List Char) (kws : List String) : Bool := kws.any (containsKw t)

/-- Keywords of the `todo` branch of FlowpadDB.inferTypeHint. -/
def todoKeywords : List String := ["明天", "later", "记得", "follow up", "跟进", "需要", "要做"]

/-- Keywords of the `issue` branch of FlowpadDB.inferTypeHint. -/
def issueKeywords : List String := ["风险", "risk", "问题", "bug", "错误", "error", "blocker", "阻塞"]

/-- Keywords of the `idea` branch of FlowpadDB.inferTypeHint. -/
def ideaKeywords : List String := ["想法", "idea", "可以考虑", "也许", "建议", "优化"]

/-- Keywords of the `feeling` branch of FlowpadDB.inferTypeHint. -/
def feelingKeywords : List String := ["感觉", "心情", "累", "沮丧", "开心", "压力", "焦虑"]

/-- FlowpadDB.inferTypeHint: lower-case the text, then test the four
keyword families in fixed order; first hit wins, fallback `note`. -/
def inferTypeHint (text : String) : String :=
  let t := lcChars text
  if startsWithCh t "todo".data || containsAnyKw t todoKeywords then "todo"
  else if containsAnyKw t issueKeywords then "issue"
  else if containsAnyKw t ideaKeywords then "idea"
  else if containsAnyKw t feelingKeywords then "feeling"
  else "note"

/-- Input payload of FlowpadDB.createNote (`CreateNoteInput` in types.ts). -/
structure CreateNoteInput where
  text : String
  context : Option Context
  type_hint : Option String
  tags : Option (List String)
  project_tag : Option String
deriving DecidableEq, Repr

/-- In-memory `Note` object built by FlowpadDB.createNote: the fresh `id`
and the call-time timestamp are the environment's inputs (uuidv4 and
`new Date()`), passed explicitly; `type_hint` is inferred when absent or
falsy, `project_hint` is always undefined, `status` starts at `new`. -/
def createdNote (input : CreateNoteInput) (id : String) (now : Nat) : Note :=
  { id := id, text := input.text, created_at := now,
    app_name := input.context.bind (fun c => c.app_name),
    window_title := input.context.bind (fun c => c.window_title),
    url := input.context.bind (fun c => c.url),
    project_hint := none,
    type_hint := some (orElseFalsy input.type_hint (inferTypeHint input.text)),
    tags := input.tags.getD [],
    project_tag := jsTruthyStr input.project_tag, status := "new" }

/-- Row inserted by FlowpadDB.createNote: identical to the returned note
except that the tags column holds `tagsJson` — NULL when the array is
empty, the serialized array otherwise. -/
def createdRow (input : CreateNoteInput) (id : String) (now : Nat) : NoteRow :=
  { id := id, text := input.text, created_at := now,
    app_name := input.context.bind (fun c => c.app_name),
    window_title := input.context.bind (fun c => c.window_title),
    url := input.context.bind (fun c => c.url),
    project_hint := none,
    type_hint := some (orElseFalsy input.type_hint (inferTypeHint input.text)),
    tags := if (input.tags.getD []).length > 0 then some (input.tags.getD []) else none,
    project_tag := jsTruthyStr input.project_tag, status := some "new" }

/-- FlowpadDB.createNote: insert the new row and return the Note object. -/
def createNote (db : List NoteRow) (input : CreateNoteInput) (id : String) (now : Nat) :
    List NoteRow × Note :=
  (db ++ [createdRow input id now], createdNote input id now)

/-- Descending `created_at` order used by `ORDER BY created_at DESC`. -/
def noteDescLe (a b : Note) : Bool := b.created_at ≤ a.created_at

/-- Sort parsed notes by `created_at` descending. -/
def sortNotesDesc (l : List Note) : List Note := l.mergeSort noteDescLe

/-- JavaScript truthiness of an optional numeric argument: `undefined`
and `0` are falsy. -/
def jsTruthyNum : Option Nat → Bool
  | some n => n != 0
  | none => false

/-- FlowpadDB.getNotes: `if (limit && offset)` uses LIMIT/OFFSET,
`else if (limit)` uses LIMIT only, else returns every row; rows are
ordered by `created_at` descending and mapped through `parseNoteRow`. -/
def getNotes (db : List NoteRow) (limit offset : Option Nat) : List Note :=
  let sorted := sortNotesDesc (db.map parseNoteRow)
  if jsTruthyNum limit && jsTruthyNum offset then
    (sorted.drop (offset.getD 0)).take (limit.getD 0)
  else if jsTruthyNum limit then
    sorted.take (limit.getD 0)
  else
    sorted

/-- FlowpadDB.getTodayNotes: `today` is the UTC day of the call
(`new Date().toISOString().split('T')[0]`) and the SQL filter
`date(created_at) = ?` compares the UTC day of each stored timestamp. -/
def getTodayNotes (db : List NoteRow) (now : Nat) : List Note :=
  (sortNotesDesc (db.map parseNoteRow)).filter (fun n => utcDay n.created_at == utcDay now)

/-- FlowpadDB.updateNoteTags: `UPDATE notes SET tags = ? WHERE id = ?`
with `tagsJson = JSON.stringify(tags)` (never NULL, even for `[]`);
returns whether any row changed. -/
def updateNoteTags (db : List NoteRow) (id : String) (tags : List String) :
    List NoteRow × Bool :=
  (db.map (fun r => if r.id = id then { r with tags := some tags } else r),
   db.any (fun r => r.id == id))

/-- Retention window of cleanupCompletedNotes: seven days. -/
def retentionSeconds : Nat := 7 * secondsPerDay

/-- Predicate of the cleanup SELECT: `status = 'closed' AND created_at < cutoff`
where `cutoff = now - 7 days`; over timestamps this is
`created_at + retentionSeconds < now`. -/
def isExpiredClosed (now : Nat) (r : NoteRow) : Bool :=
  r.status == some "closed" && r.created_at + retentionSeconds < now

/-- Result shape of FlowpadDB.cleanupCompletedNotes. -/
structure CleanupResult where
  success : Bool
  deletedCount : Nat
  error : Option String
deriving DecidableEq, Repr

/-- FlowpadDB.cleanupCompletedNotes: select the ids of rows with
`status = 'closed'` and `created_at` before the 7-day cutoff, return
`deletedCount 0` when none match, otherwise delete each selected row by
id and count the deletions.  Because `id` is the PRIMARY KEY, the
per-id DELETE loop removes exactly the selected rows, i.e. the table
becomes the complement filter and the count is the number selected. -/
def cleanupCompletedNotes (db : List NoteRow) (now : Nat) :
    List NoteRow × CleanupResult :=
  let matched := db.filter (isExpiredClosed now)
  if matched.isEmpty then
    (db, { success := true, deletedCount := 0, error := none })
  else
    (db.filter (fun r => !isExpiredClosed now r),
     { success := true, deletedCount := matched.length, error := none })

/-- One row of the `custom_tags` table. -/
structure CustomTag where
  id : String
  name : String
  color : String
  created_at : Nat
  used_count : Nat
deriving DecidableEq, Repr

/-- FlowpadDB.tagExists: `SELECT COUNT(*) FROM custom_tags WHERE name = ?`
compared against zero. -/
def tagExists (tags : List CustomTag) (name : String) : Bool :=
  tags.any (fun t => t.name == name)

/-- Result shape of FlowpadDB.createCustomTag. -/
structure TagResult where
  success : Bool
  error : Option String
deriving DecidableEq, Repr

/-- FlowpadDB.createCustomTag: duplicate names are rejected up front via
`tagExists` (the UNIQUE column is a second line of defence that the model
never reaches, since the pre-check already catches every duplicate);
otherwise a row is inserted with `color || '#3B82F6'` and `used_count 0`.
The whole body is wrapped in try/catch in the source, so it never throws;
the model is a total function. -/
def createCustomTag (tags : List CustomTag) (name : String) (color : Option String)
    (id : String) (now : Nat) : List CustomTag × TagResult :=
  if tagExists tags name then
    (tags, { success := false, error := some "标签名称已存在" })
  else
    (tags ++ [{ id := id, name := name, color := orElseFalsy color "#3B82F6",
                created_at := now, used_count := 0 }],
     { success := true, error := none })

/-- Order of `ORDER BY used_count DESC, created_at DESC`. -/
def customTagLe (a b : CustomTag) : Bool :=
  b.used_count < a.used_count || (b.used_count == a.used_count && b.created_at ≤ a.created_at)

/-- FlowpadDB.getCustomTags: every row, ordered by `used_count`
descending then `created_at` descending. -/
def getCustomTags (tags : List CustomTag) : List CustomTag := tags.mergeSort customTagLe

/-- JSON values as produced by `JSON.parse`.  Numbers are modelled as
integers, and string escapes as the common subset below; every input this
development evaluates on stays inside that fragment, and the parser
rejects (returns `none` on) anything outside it. -/
inductive Json where
  | null
  | bool (b : Bool)
  | num (n : Int)
  | str (s : String)
  | arr (elems : List Json)
  | obj (fields : List (String × Json))

/-- JSON whitespace. -/
def isJsonWs (c : Char) : Bool := c == ' ' || c == '\t' || c == '\n' || c == '\r'

/-- Drop leading JSON whitespace. -/
def skipWs (l : List Char) : List Char := l.dropWhile isJsonWs

/-- Parse the body of a JSON string (the opening quote already consumed),
returning the decoded characters and the input after the closing quote. -/
def parseJsonString : Nat → List Char → Option (List Char × List Char)
  | 0, _ => none
  | _, [] => none
  | fuel + 1, c :: rest =>
    if c == '"' then some ([], rest)
    else if c == '\\' then
      match rest with
      | [] => none
      | e :: rest2 =>
        let dec : Option Char :=
          if e == '"' then some '"'
          else if e == '\\' then some '\\'
          else if e == '/' then some '/'
          else if e == 'n' then some '\n'
          else if e == 't' then some '\t'
          else if e == 'r' then some '\r'
          else none
        match dec with
        | none => none
        | some d =>
          match parseJsonString fuel rest2 with
          | some (s, rem) => some (d :: s, rem)
          | none => none
    else
      match parseJsonString fuel rest with
      | some (s, rem) => some (c :: s, rem)
      | none => none

/-- Parse a nonempty run of decimal digits. -/
def parseDigits (l : List Char) : Option (Nat × List Char) :=
  let ds := l.takeWhile (fun c => c.isDigit)
  if ds.isEmpty then none
  else some (ds.foldl (fun acc c => acc * 10 + (c.toNat - 48)) 0, l.drop ds.length)

mutual

/-- Recursive-descent parser for one JSON value, fuel-bounded. -/
def parseJsonValue : Nat → List Char → Option (Json × List Char)
  | 0, _ => none
  | fuel + 1, l =>
    match skipWs l with
    | [] => none
    | c :: rest =>
      if c == '"' then
        match parseJsonString (fuel + 1) rest with
        | some (s, rem) => some (Json.str (String.mk s), rem)
        | none => none
      else if c == '\x7b' then
        match skipWs rest with
        | '\x7d' :: rem => some (Json.obj [], rem)
        | _ => parseJsonObjRest fuel rest []
      else if c == '[' then
        match skipWs rest with
        | ']' :: rem => some (Json.arr [], rem)
        | _ => parseJsonArrRest fuel rest []
      else if startsWithCh (c :: rest) "true".data then
        some (Json.bool true, (c :: rest).drop 4)
      else if startsWithCh (c :: rest) "false".data then
        some (Json.bool false, (c :: rest).drop 5)
      else if startsWithCh (c :: rest) "null".data then
        some (Json.null, (c :: rest).drop 4)
      else if c == '-' then
        match parseDigits rest with
        | some (n, rem) => some (Json.num (-(n : Int)), rem)
        | none => none
      else
        match parseDigits (c :: rest) with
        | some (n, rem) => some (Json.num (n : Int), rem)
        | none => none

/-- Parse the members of a JSON object after at least one member is known
to follow (the opening brace already consumed). -/
def parseJsonObjRest : Nat → List Char → List (String × Json) → Option (Json × List Char)
  | 0, _, _ => none
  | fuel + 1, l, acc =>
    match skipWs l with
    | '"' :: rest =>
      match parseJsonString (fuel + 1) rest with
      | some (k, rem) =>
        match skipWs rem with
        | ':' :: rem2 =>
          match parseJsonValue fuel rem2 with
          | some (v, rem3) =>
            match skipWs rem3 with
            | ',' :: rem4 => parseJsonObjRest fuel rem4 (acc ++ [(String.mk k, v)])
            | '\x7d' :: rem4 => some (Json.obj (acc ++ [(String.mk k, v)]), rem4)
            | _ => none
          | none => none
        | _ => none
      | none => none
    | _ => none

/-- Parse the elements of a JSON array after at least one element is known
to follow (the opening bracket already consumed). -/
def parseJsonArrRest : Nat → List Char → List Json → Option (Json × List Char)
  | 0, _, _ => none
  | fuel + 1, l, acc =>
    match parseJsonValue fuel l with
    | some (v, rem) =>
      match skipWs rem with
      | ',' :: rem2 => parseJsonArrRest fuel rem2 (acc ++ [v])
      | ']' :: rem2 => some (Json.arr (acc ++ [v]), rem2)
      | _ => none
    | none => none

end

/-- Model of `JSON.parse` on a character sequence: one JSON value, then
nothing but whitespace; anything else is a parse error (`none`). -/
def jsonParseChars (l : List Char) : Option Json :=
  match parseJsonValue (l.length + 1) l with
  | some (v, rem) => if (skipWs rem).isEmpty then some v else none
  | none => none

/-- Index of the first opening brace, as the regex `\x7b` anchor finds it. -/
def firstBraceIdx : List Char → Option Nat
  | [] => none
  | c :: rest => if c == '\x7b' then some 0 else (firstBraceIdx rest).map (· + 1)

/-- Index of the last closing brace. -/
def lastBraceIdx : List Char → Option Nat
  | [] => none
  | c :: rest =>
    match lastBraceIdx rest with
    | some j => some (j + 1)
    | none => if c == '\x7d' then some 0 else none

/-- Semantics of `response.match(/\x7b[\s\S]*\x7d/)`: the greedy match
spans from the first opening brace to the last closing brace after it;
no such pair means no match. -/
def greedyBraceMatch (s : List Char) : Option (List Char) :=
  match firstBraceIdx s with
  | none => none
  | some i =>
    match lastBraceIdx s with
    | none => none
    | some j => if i < j then some ((s.drop i).take (j + 1 - i)) else none

/-- Property lookup on a parsed JavaScript object: with duplicate keys the
last occurrence wins, as in `JSON.parse`. -/
def lookupField (fields : List (String × Json)) (k : String) : Option Json :=
  (fields.reverse.find? (fun f => f.1 == k)).map (fun f => f.2)

/-- Structured assistant reply (`AssistantResponse` in types.ts); actions
are kept as raw JSON values. -/
structure AssistantResponse where
  message : String
  actions : List Json

/-- AIService.parseAssistantResponse: run the greedy brace match, try
`JSON.parse` on the matched span; on success take `parsed.message` when it
is a nonempty string (the `parsed.message || response` idiom, restricted
here to string-or-absent `message` fields) and `parsed.actions` when it is
an array; any failure falls back to the raw text with no actions.  The
source wraps the body in try/catch, so the operation never throws; the
model is a total function. -/
def parseAssistantResponse (response : String) : AssistantResponse :=
  match greedyBraceMatch response.data with
  | none => { message := response, actions := [] }
  | some m =>
    match jsonParseChars m with
    | some (Json.obj fields) =>
      { message :=
          match lookupField fields "message" with
          | some (Json.str s) => if s = "" then response else s
          | _ => response,
        actions :=
          match lookupField fields "actions" with
          | some (Json.arr xs) => xs
          | _ => [] }
    | some _ => { message := response, actions := [] }
    | none => { message := response, actions := [] }

/-- Length of the shortest prefix of `l` that balances an object whose
braces are counted from depth zero (so a leading opening brace closes when
its matching closing brace arrives). -/
def balancedSpan : List Char → Nat → Nat → Option Nat
  | [], _, _ => none
  | c :: rest, depth, len =>
    if c == '\x7b' then balancedSpan rest (depth + 1) (len + 1)
    else if c == '\x7d' then
      if depth == 1 then some (len + 1)
      else balancedSpan rest (depth - 1) (len + 1)
    else balancedSpan rest depth (len + 1)

/-- Modelled from the spec: "extract the first balanced JSON object found
anywhere in the provider's raw text".  The source has no such scanner (it
uses the greedy regex above); this definition exists only to state the
claim's words and compare them with the code's behaviour. -/
def firstBalancedObject (s : List Char) : Option (List Char) :=
  match firstBraceIdx s with
  | none => none
  | some i =>
    match balancedSpan (s.drop i) 0 0 with
    | some len => some ((s.drop i).take len)
    | none => none

/-- AIService.optimizeContent with the provider call's outcome passed in
explicitly.  The `sanitize` parameter abstracts the deterministic
marker-stripping pass of lines 323–341 (a chain of regex replacements on
the provider's reply); the claim under study concerns only the catch
branch, which returns `rawContent` before any sanitization can touch it,
so the theorem quantifies over every possible sanitizer.  The source wraps
the body in try/catch, so the operation never throws; the model is total. -/
def optimizeContent (sanitize : String → String) (providerResult : Except String String)
    (rawContent : String) : String :=
  match providerResult with
  | Except.ok response => sanitize response
  | Except.error _ => rawContent

/-- Data of one resolved active-win call: `ownerName` is `some name`
exactly when `activeWindow.owner` exists and `owner.name` is a string. -/
structure ActiveWinResult where
  ownerName : Option String
  title : Option String
  url : Option String
deriving DecidableEq, Repr

/-- ContextCapture.getFallbackContext. -/
def fallbackContext : Context :=
  { app_name := some "Unknown Application",
    window_title := some "Context capture unavailable",
    url := none }

/-- Loop body of ContextCapture.getActiveWindowWithRetry: `outcome i` is
what the `i`-th `Promise.race([activeWin(), timeout])` produces — an
exception (error or 3-second timeout), a falsy resolution (`none`), or a
window record.  A truthy result returns immediately; a falsy one falls
through to the next attempt; an exception rethrows only on the last
attempt, otherwise the loop backs off and retries.  When the loop runs
out of attempts it resolves to `null`. -/
def retryGo (outcome : Nat → Except String (Option ActiveWinResult)) :
    Nat → Nat → Except String (Option ActiveWinResult)
  | _, 0 => Except.ok none
  | attempt, remaining + 1 =>
    match outcome attempt with
    | Except.ok (some w) => Except.ok (some w)
    | Except.ok none => retryGo outcome (attempt + 1) remaining
    | Except.error e =>
      if remaining == 0 then Except.error e
      else retryGo outcome (attempt + 1) remaining

/-- ContextCapture.getActiveWindowWithRetry with its default of two
attempts (one initial try plus one retry). -/
def getActiveWindowWithRetry (outcome : Nat → Except String (Option ActiveWinResult)) :
    Except String (Option ActiveWinResult) :=
  retryGo outcome 0 2

/-- ContextCapture.getCurrentContext: on a retry failure or a falsy
window the fallback context is returned; a window whose owner lacks a
string name is structurally invalid and also yields the fallback;
otherwise the context is built from the window record, with
`(activeWindow as any).url || extractURL(title, name)` for the URL.  The
`extractUrl` parameter abstracts ContextCapture.extractURL (lines
99–162), which only the success path consults.  The whole body is inside
try/catch, so the operation resolves rather than rejects; the model is a
total function. -/
def getCurrentContext (extractUrl : Option String → String → Option String)
    (outcome : Nat → Except String (Option ActiveWinResult)) : Context :=
  match getActiveWindowWithRetry outcome with
  | Except.error _ => fallbackContext
  | Except.ok none => fallbackContext
  | Except.ok (some w) =>
    match w.ownerName with
    | none => fallbackContext
    | some name =>
      { app_name := some name,
        window_title := some (w.title.getD ""),
        url :=
          match w.url with
          | some u => if u = "" then extractUrl w.title name else some u
          | none => extractUrl w.title name }

/-- Creation input carrying a duplicate tags array. -/
def dupTagsInput : CreateNoteInput :=
  { text := "x", context := none, type_hint := none, tags := some ["a", "a"],
    project_tag := none }

/-- Creation input carrying a duplicate-free tags array. -/
def abTagsInput : CreateNoteInput :=
  { text := "x", context := none, type_hint := none, tags := some ["a", "b"],
    project_tag := none }

/-- Tag-wellformedness invariant of a notes table: every row's
materialized tags list is duplicate-free. -/
def TagsNodupInv (db : List NoteRow) : Prop := ∀ r ∈ db, (r.tags.getD []).Nodup

/-- Provider reply used to separate the greedy regex from the claim's
first-balanced-object reading: a well-formed object followed by prose that
contains one more closing brace. -/
def c3Input : String := "\x7b\"message\":\"hi\",\"actions\":[]\x7d oops \x7d"

/-- The first balanced JSON object embedded in `c3Input`. -/
def c3Obj : String := "\x7b\"message\":\"hi\",\"actions\":[]\x7d"

/-- C6: the classifier evaluates its branches in fixed precedence order
with `todo` first, so every text whose lower-cased form starts with
"todo" or contains one of the todo task/follow-up markers is classified
`todo`, regardless of any issue-, idea-, or feeling-vocabulary it also
contains; the function is pure and deterministic by construction and
case-insensitive through the initial lower-casing. -/
theorem inferTypeHint_todo_precedence (text : String)
    (h : (startsWithCh (lcChars text) "todo".data ||
          containsAnyKw (lcChars text) todoKeywords) = true) :
    inferTypeHint text = "todo" := by
  unfold inferTypeHint
  simp only [h, if_true]

/-- Witness for C6: a text containing a follow-up marker (跟进) together
with idea- (想法), issue- (风险) and feeling- (感觉, 累) vocabulary still
classifies as `todo`. -/
theorem inferTypeHint_todo_precedence_witness :
    (startsWithCh (lcChars "明天要跟进，这个想法有风险，感觉很累") "todo".data ||
      containsAnyKw (lcChars "明天要跟进，这个想法有风险，感觉很累") todoKeywords) = true ∧
    containsAnyKw (lcChars "明天要跟进，这个想法有风险，感觉很累") issueKeywords = true ∧
    containsAnyKw (lcChars "明天要跟进，这个想法有风险，感觉很累") ideaKeywords = true ∧
    containsAnyKw (lcChars "明天要跟进，这个想法有风险，感觉很累") feelingKeywords = true ∧
    inferTypeHint "明天要跟进，这个想法有风险，感觉很累" = "todo" :=
  ⟨by decide, by decide, by decide, by decide,
   inferTypeHint_todo_precedence "明天要跟进，这个想法有风险，感觉很累" (by decide)⟩

/-- C7: when the provider call fails, optimizeContent returns the exact
original input string unchanged — for every conceivable sanitization pass,
none of it is applied on the failure path — and, the model being a total
function, the failure is absorbed rather than propagated; the success
branch by contrast does run the sanitizer, showing the failure path
genuinely bypasses it. -/
theorem optimizeContent_failure_identity (sanitize : String → String) (err raw : String) :
    optimizeContent sanitize (Except.error err) raw = raw ∧
    (∀ resp, optimizeContent sanitize (Except.ok resp) raw = sanitize resp) :=
  ⟨rfl, fun _ => rfl⟩

/-- C8: if both the initial attempt and the single retry fail (error or
timeout), or if the window record returned by the retry loop lacks a
string application name, getCurrentContext resolves to exactly the fixed
fallback context; the model is a total function, so it always resolves and
never rejects. -/
theorem getCurrentContext_fallback_on_failure
    (extractUrl : Option String → String → Option String)
    (outcome : Nat → Except String (Option ActiveWinResult))
    (e0 e1 : String) (w : ActiveWinResult) :
    (outcome 0 = Except.error e0 → outcome 1 = Except.error e1 →
      getCurrentContext extractUrl outcome = fallbackContext) ∧
    (getActiveWindowWithRetry outcome = Except.ok (some w) → w.ownerName = none →
      getCurrentContext extractUrl outcome = fallbackContext) ∧
    fallbackContext = { app_name := some "Unknown Application",
                        window_title := some "Context capture unavailable",
                        url := none } := by
  refine ⟨?_, ?_, rfl⟩
  · intro h0 h1
    unfold getCurrentContext getActiveWindowWithRetry retryGo
    rw [h0]
    unfold retryGo
    rw [h1]
    rfl
  · intro hr hw
    obtain ⟨own, title, url⟩ := w
    simp only at hw
    subst hw
    unfold getCurrentContext
    rw [hr]

/-- Witness for C8: a run whose two attempts both time out yields the
fallback, and a run that returns a window without an owner name yields
the fallback as well. -/
theorem getCurrentContext_fallback_on_failure_witness :
    getCurrentContext (fun _ _ => none) (fun _ => Except.error "active-win timeout") =
      fallbackContext ∧
    getCurrentContext (fun _ _ => none)
      (fun _ => Except.ok (some ⟨none, some "t", none⟩)) = fallbackContext :=
  ⟨(getCurrentContext_fallback_on_failure (fun _ _ => none)
      (fun _ => Except.error "active-win timeout") "active-win timeout" "active-win timeout"
      ⟨none, some "t", none⟩).1 rfl rfl,
   (getCurrentContext_fallback_on_failure (fun _ _ => none)
      (fun _ => Except.ok (some ⟨none, some "t", none⟩)) "e" "e"
      ⟨none, some "t", none⟩).2.1 rfl rfl⟩

/-- C10: getNotes paginates only when both arguments are JavaScript-truthy:
an offset without a limit is silently ignored and the full
descending-ordered list is returned, and `limit n, offset 0` coincides
with `limit n` alone because `0` is falsy. -/
theorem getNotes_pagination_truthiness (db : List NoteRow) (n k : Nat) :
    getNotes db none (some k) = getNotes db none none ∧
    getNotes db (some n) (some 0) = getNotes db (some n) none ∧
    List.Sorted (fun a b : Note => b.created_at ≤ a.created_at) (getNotes db none (some k)) := by
  refine ⟨?_, ?_, ?_⟩
  · simp [getNotes, jsTruthyNum]
  · simp [getNotes, jsTruthyNum]
  · have hs := @List.sorted_mergeSort Note noteDescLe
      (fun a b c hab hbc => by
        simp only [noteDescLe, decide_eq_true_eq] at *
        exact Nat.le_trans hbc hab)
      (fun a b => by
        simp only [noteDescLe, Bool.or_eq_true, decide_eq_true_eq]
        exact Nat.le_total b.created_at a.created_at)
      (db.map parseNoteRow)
    have hred : getNotes db none (some k) = sortNotesDesc (db.map parseNoteRow) := by
      simp [getNotes, jsTruthyNum]
    rw [hred]
    exact hs.imp (fun hab => by
      simp only [noteDescLe, decide_eq_true_eq] at hab
      exact hab)


/-- Helper: the table after cleanupCompletedNotes is the filter keeping
every row that is not an expired closed note, whatever branch ran, and the
result always reports success. -/
theorem cleanup_fst_success (db : List NoteRow) (now : Nat) :
    (cleanupCompletedNotes db now).1 = db.filter (fun r => !isExpiredClosed now r) ∧
    (cleanupCompletedNotes db now).2.success = true := by
  by_cases hm : (db.filter (isExpiredClosed now)).isEmpty = true
  · have hall : ∀ r ∈ db, isExpiredClosed now r = false := by
      intro r hr
      by_contra hc
      have hmem : r ∈ db.filter (isExpiredClosed now) :=
        List.mem_filter.mpr ⟨hr, by revert hc; cases isExpiredClosed now r <;> simp⟩
      rw [List.isEmpty_iff] at hm
      simp [hm] at hmem
    constructor
    · simp only [cleanupCompletedNotes, hm, if_true]
      exact (List.filter_eq_self.mpr (fun a ha => by simp [hall a ha])).symm
    · simp [cleanupCompletedNotes, hm]
  · constructor
    · simp [cleanupCompletedNotes, hm]
    · simp [cleanupCompletedNotes, hm]

/-- Helper: with no row matching the cleanup predicate, the call returns
the table unchanged and a zero deletion count. -/
theorem cleanup_no_match (db : List NoteRow) (now : Nat)
    (h : db.filter (isExpiredClosed now) = []) :
    cleanupCompletedNotes db now = (db, { success := true, deletedCount := 0, error := none }) := by
  unfold cleanupCompletedNotes
  rw [h]
  rfl

/-- Closed-normal-form restatement of the cleanup predicate. -/
theorem isExpiredClosed_eq_true (now : Nat) (r : NoteRow) :
    isExpiredClosed now r = true ↔
      r.status = some "closed" ∧ r.created_at + retentionSeconds < now := by
  simp [isExpiredClosed]

/-- C2: cleanupCompletedNotes deletes a note exactly when its status is
`closed` and its creation time is more than seven days before the call
(the table carries no record of when the status changed, so the predicate
can only use `created_at`); the surviving rows are a sublist of the
original table (every other note is untouched), the call always reports
success, calling it again on its own output deletes nothing further, and
with zero matches it returns `deletedCount 0` instead of raising. -/
theorem cleanupCompletedNotes_correct (db : List NoteRow) (now : Nat) :
    (∀ r ∈ db, (r ∈ (cleanupCompletedNotes db now).1 ↔
        ¬(r.status = some "closed" ∧ r.created_at + retentionSeconds < now))) ∧
    (cleanupCompletedNotes db now).1.Sublist db ∧
    (cleanupCompletedNotes db now).2.success = true ∧
    cleanupCompletedNotes (cleanupCompletedNotes db now).1 now =
      ((cleanupCompletedNotes db now).1,
       { success := true, deletedCount := 0, error := none }) ∧
    ((∀ r ∈ db, ¬(r.status = some "closed" ∧ r.created_at + retentionSeconds < now)) →
      cleanupCompletedNotes db now = (db, { success := true, deletedCount := 0, error := none })) := by
  obtain ⟨hfst, hsucc⟩ := cleanup_fst_success db now
  refine ⟨?_, ?_, hsucc, ?_, ?_⟩
  · intro r hr
    rw [hfst, List.mem_filter]
    constructor
    · rintro ⟨-, hp⟩ hc
      rw [← isExpiredClosed_eq_true] at hc
      simp [hc] at hp
    · intro hn
      refine ⟨hr, ?_⟩
      have hfalse : isExpiredClosed now r = false := by
        cases hif : isExpiredClosed now r
        · rfl
        · exact absurd ((isExpiredClosed_eq_true now r).mp hif) hn
      simp [hfalse]
  · rw [hfst]; exact List.filter_sublist db
  · refine cleanup_no_match _ now ?_
    rw [hfst, List.filter_filter, List.filter_eq_nil_iff]
    intro a _
    cases isExpiredClosed now a <;> simp
  · intro hno
    refine cleanup_no_match db now ?_
    rw [List.filter_eq_nil_iff]
    intro a ha hc
    exact hno a ha ((isExpiredClosed_eq_true now a).mp (by simpa using hc))

/-- Witness for C2, on the spec's own three test notes with the call made
at day 30: a closed note created on day 24 (6 days old) survives, a
closed note created on day 22 (8 days old) is removed, an ongoing note
created on day 0 (30 days old) survives, and re-running the cleanup
deletes nothing further. -/
theorem cleanupCompletedNotes_correct_witness :
    (⟨"a", "closed6", 24 * 86400, none, none, none, none, none, none, none,
        some "closed"⟩ : NoteRow) ∈
      (cleanupCompletedNotes
        [⟨"a", "closed6", 24 * 86400, none, none, none, none, none, none, none, some "closed"⟩,
         ⟨"b", "closed8", 22 * 86400, none, none, none, none, none, none, none, some "closed"⟩,
         ⟨"c", "ongoing30", 0, none, none, none, none, none, none, none, some "ongoing"⟩]
        (30 * 86400)).1 ∧
    (⟨"b", "closed8", 22 * 86400, none, none, none, none, none, none, none,
        some "closed"⟩ : NoteRow) ∉
      (cleanupCompletedNotes
        [⟨"a", "closed6", 24 * 86400, none, none, none, none, none, none, none, some "closed"⟩,
         ⟨"b", "closed8", 22 * 86400, none, none, none, none, none, none, none, some "closed"⟩,
         ⟨"c", "ongoing30", 0, none, none, none, none, none, none, none, some "ongoing"⟩]
        (30 * 86400)).1 ∧
    (⟨"c", "ongoing30", 0, none, none, none, none, none, none, none,
        some "ongoing"⟩ : NoteRow) ∈
      (cleanupCompletedNotes
        [⟨"a", "closed6", 24 * 86400, none, none, none, none, none, none, none, some "closed"⟩,
         ⟨"b", "closed8", 22 * 86400, none, none, none, none, none, none, none, some "closed"⟩,
         ⟨"c", "ongoing30", 0, none, none, none, none, none, none, none, some "ongoing"⟩]
        (30 * 86400)).1 := by
  have h := cleanupCompletedNotes_correct
    [⟨"a", "closed6", 24 * 86400, none, none, none, none, none, none, none, some "closed"⟩,
     ⟨"b", "closed8", 22 * 86400, none, none, none, none, none, none, none, some "closed"⟩,
     ⟨"c", "ongoing30", 0, none, none, none, none, none, none, none, some "ongoing"⟩]
    (30 * 86400)
  refine ⟨?_, ?_, ?_⟩
  · exact (h.1 _ (by decide)).mpr (by decide)
  · intro hmem
    exact ((h.1 _ (by decide)).mp hmem) (by decide)
  · exact (h.1 _ (by decide)).mpr (by decide)

/-- C5: starting from a store without the tag name, creating the same
name twice makes the second call return `success := false` with the
duplicate-name error, leaves the stored custom tags unchanged, and
getCustomTags then reports exactly one entry with that name; the model is
a total function, mirroring the try/catch in the source, so the call
never throws. -/
theorem createCustomTag_duplicate_rejected (st : List CustomTag) (name : String)
    (c1 c2 : Option String) (id1 id2 : String) (t1 t2 : Nat)
    (h : tagExists st name = false) :
    (createCustomTag (createCustomTag st name c1 id1 t1).1 name c2 id2 t2).2.success = false ∧
    (createCustomTag (createCustomTag st name c1 id1 t1).1 name c2 id2 t2).2.error =
      some "标签名称已存在" ∧
    (createCustomTag (createCustomTag st name c1 id1 t1).1 name c2 id2 t2).1 =
      (createCustomTag st name c1 id1 t1).1 ∧
    ((getCustomTags (createCustomTag (createCustomTag st name c1 id1 t1).1 name c2 id2 t2).1).filter
        (fun t => t.name == name)).length = 1 := by
  have h1 : createCustomTag st name c1 id1 t1 =
      (st ++ [{ id := id1, name := name, color := orElseFalsy c1 "#3B82F6",
                created_at := t1, used_count := 0 }],
       { success := true, error := none }) := by
    simp [createCustomTag, h]
  have hex : tagExists (st ++ [{ id := id1, name := name, color := orElseFalsy c1 "#3B82F6",
                                 created_at := t1, used_count := 0 }]) name = true := by
    simp [tagExists, List.any_append]
  have h2 : createCustomTag (st ++ [{ id := id1, name := name,
                                      color := orElseFalsy c1 "#3B82F6",
                                      created_at := t1, used_count := 0 }]) name c2 id2 t2 =
      (st ++ [{ id := id1, name := name, color := orElseFalsy c1 "#3B82F6",
                created_at := t1, used_count := 0 }],
       { success := false, error := some "标签名称已存在" }) := by
    simp [createCustomTag, hex]
  rw [h1]
  dsimp only
  rw [h2]
  dsimp only
  refine ⟨rfl, rfl, rfl, ?_⟩
  have hperm : (getCustomTags (st ++ [{ id := id1, name := name,
                                        color := orElseFalsy c1 "#3B82F6",
                                        created_at := t1, used_count := 0 }])).Perm
      (st ++ [{ id := id1, name := name, color := orElseFalsy c1 "#3B82F6",
                created_at := t1, used_count := 0 }]) := List.mergeSort_perm _ _
  rw [← List.countP_eq_length_filter, hperm.countP_eq, List.countP_append]
  have hz : st.countP (fun t => t.name == name) = 0 := by
    rw [List.countP_eq_zero]
    intro t ht
    rw [tagExists, List.any_eq_false] at h
    simpa using h t ht
  rw [hz]
  simp

/-- Witness for C5: creating "Work" twice in an empty store. -/
theorem createCustomTag_duplicate_rejected_witness :
    (createCustomTag (createCustomTag [] "Work" none "t1" 0).1 "Work" none "t2" 1).2.success =
      false ∧
    ((getCustomTags
        (createCustomTag (createCustomTag [] "Work" none "t1" 0).1 "Work" none "t2" 1).1).filter
        (fun t => t.name == "Work")).length = 1 := by
  have h := createCustomTag_duplicate_rejected [] "Work" none none "t1" "t2" 0 1 (by decide)
  exact ⟨h.1, h.2.2.2⟩

/-- Helper: membership in the unpaginated getNotes result is membership in
the table, up to row parsing. -/
theorem mem_getNotes_all (db : List NoteRow) (m : Note) :
    m ∈ getNotes db none none ↔ ∃ r ∈ db, parseNoteRow r = m := by
  simp [getNotes, jsTruthyNum, sortNotesDesc, List.mem_mergeSort, List.mem_map]

/-- Helper: the serialized-then-parsed tags column round-trips to the
original array, including the empty array (stored as NULL). -/
theorem getD_tagsJson (tags : List String) :
    (if tags.length > 0 then some tags else (none : Option (List String))).getD [] = tags := by
  by_cases h : tags.length > 0
  · rw [if_pos h]; rfl
  · rw [if_neg h]
    have hnil : tags = [] := by
      cases tags with
      | nil => rfl
      | cons a l => simp at h
    rw [hnil]; rfl

/-- Helper: collapsing falsy strings to undefined is idempotent. -/
theorem jsTruthyStr_idem (v : Option String) : jsTruthyStr (jsTruthyStr v) = jsTruthyStr v := by
  cases v with
  | none => rfl
  | some s =>
    by_cases hs : s = ""
    · simp [jsTruthyStr, hs]
    · simp [jsTruthyStr, hs]

/-- Helper: parsing the row written by createNote yields exactly the Note
object createNote returned to the caller. -/
theorem parse_createdRow (input : CreateNoteInput) (id : String) (now : Nat) :
    parseNoteRow (createdRow input id now) = createdNote input id now := by
  simp [parseNoteRow, createdRow, createdNote, jsTruthyStr_idem, getD_tagsJson, orElseFalsy]

/-- C9: for an id present in the table, updateNoteTags reports a change,
every note fetched under that id afterwards carries exactly the tags array
passed in, at least one such note is fetchable, and repeating the
identical call changes neither the table nor the reported result. -/
theorem updateNoteTags_roundtrip (db : List NoteRow) (id : String) (tags : List String)
    (h : ∃ r ∈ db, r.id = id) :
    (updateNoteTags db id tags).2 = true ∧
    (∀ m ∈ getNotes (updateNoteTags db id tags).1 none none, m.id = id → m.tags = tags) ∧
    (∃ m ∈ getNotes (updateNoteTags db id tags).1 none none, m.id = id ∧ m.tags = tags) ∧
    (updateNoteTags (updateNoteTags db id tags).1 id tags).1 = (updateNoteTags db id tags).1 ∧
    (updateNoteTags (updateNoteTags db id tags).1 id tags).2 = true := by
  obtain ⟨r0, hr0, hid0⟩ := h
  refine ⟨?_, ?_, ?_, ?_, ?_⟩
  · simp only [updateNoteTags]
    rw [List.any_eq_true]
    exact ⟨r0, hr0, by simp [hid0]⟩
  · intro m hm hmid
    rw [mem_getNotes_all] at hm
    obtain ⟨r, hr, hpm⟩ := hm
    simp only [updateNoteTags, List.mem_map] at hr
    obtain ⟨r1, hr1, hupd⟩ := hr
    by_cases hc : r1.id = id
    · rw [if_pos hc] at hupd
      subst hupd
      rw [← hpm]
      simp [parseNoteRow]
    · rw [if_neg hc] at hupd
      subst hupd
      rw [← hpm] at hmid
      simp only [parseNoteRow] at hmid
      exact absurd hmid hc
  · refine ⟨parseNoteRow { r0 with tags := some tags }, ?_, ?_, ?_⟩
    · rw [mem_getNotes_all]
      refine ⟨{ r0 with tags := some tags }, ?_, rfl⟩
      simp only [updateNoteTags, List.mem_map]
      exact ⟨r0, hr0, by rw [if_pos hid0]⟩
    · simp [parseNoteRow, hid0]
    · simp [parseNoteRow]
  · simp only [updateNoteTags, List.map_map]
    apply List.map_congr_left
    intro a _
    by_cases hc : a.id = id
    · simp [hc]
    · simp [hc]
  · simp only [updateNoteTags]
    rw [List.any_eq_true]
    refine ⟨{ r0 with tags := some tags }, ?_, by simp [hid0]⟩
    simp only [List.mem_map]
    exact ⟨r0, hr0, by rw [if_pos hid0]⟩

/-- Witness for C9: updating the tags of the only note in a one-row table. -/
theorem updateNoteTags_roundtrip_witness :
    (updateNoteTags [⟨"n1", "t", 5, none, none, none, none, none, none, none, none⟩]
      "n1" ["a", "b"]).2 = true ∧
    (∃ m ∈ getNotes (updateNoteTags
        [⟨"n1", "t", 5, none, none, none, none, none, none, none, none⟩]
        "n1" ["a", "b"]).1 none none, m.id = "n1" ∧ m.tags = ["a", "b"]) := by
  have h := updateNoteTags_roundtrip
    [⟨"n1", "t", 5, none, none, none, none, none, none, none, none⟩] "n1" ["a", "b"]
    ⟨⟨"n1", "t", 5, none, none, none, none, none, none, none, none⟩, by decide, rfl⟩
  exact ⟨h.1, h.2.2.1⟩

/-- C4 counterexample: createNote stores the caller's tags array verbatim
with no deduplication, so passing `["a", "a"]` produces a note — both the
returned object and the one observable through getNotes — whose tags list
contains a duplicate. -/
theorem createNote_duplicate_tags_observable :
    (createNote [] dupTagsInput "id0" 0).2.tags = ["a", "a"] ∧
    ∃ m ∈ getNotes (createNote [] dupTagsInput "id0" 0).1 none none, ¬ m.tags.Nodup := by
  constructor
  · rfl
  · refine ⟨parseNoteRow (createdRow dupTagsInput "id0" 0),
      (mem_getNotes_all _ _).mpr ⟨createdRow dupTagsInput "id0" 0, by simp [createNote], rfl⟩,
      ?_⟩
    decide

/-- C4 amended: the store never introduces duplicate tags of its own —
createNote and updateNoteTags write the caller's array verbatim, so
duplicate-freedom is preserved whenever the caller supplies duplicate-free
arrays, and every note observable through getNotes under that discipline
has duplicate-free tags — but the store does not enforce the invariant
against a caller who passes duplicates. -/
theorem tags_nodup_preserved_not_enforced (db : List NoteRow) (input : CreateNoteInput)
    (id tid : String) (now : Nat) (tags : List String) (hdb : TagsNodupInv db) :
    ((input.tags.getD []).Nodup →
      TagsNodupInv (createNote db input id now).1 ∧
      (createNote db input id now).2.tags.Nodup) ∧
    (tags.Nodup → TagsNodupInv (updateNoteTags db tid tags).1) ∧
    (∀ m ∈ getNotes db none none, m.tags.Nodup) := by
  refine ⟨?_, ?_, ?_⟩
  · intro hin
    constructor
    · intro r hr
      simp only [createNote, List.mem_append, List.mem_singleton] at hr
      rcases hr with hr | hr
      · exact hdb r hr
      · subst hr
        simp only [createdRow, getD_tagsJson]
        exact hin
    · simpa [createNote, createdNote] using hin
  · intro hnd r hr
    simp only [updateNoteTags, List.mem_map] at hr
    obtain ⟨r1, hr1, hupd⟩ := hr
    by_cases hc : r1.id = tid
    · rw [if_pos hc] at hupd
      subst hupd
      simpa using hnd
    · rw [if_neg hc] at hupd
      subst hupd
      exact hdb r1 hr1
  · intro m hm
    rw [mem_getNotes_all] at hm
    obtain ⟨r, hr, hpm⟩ := hm
    rw [← hpm]
    simpa [parseNoteRow] using hdb r hr

/-- Witness for C4 amended: a duplicate-free creation in an empty table. -/
theorem tags_nodup_preserved_not_enforced_witness :
    TagsNodupInv (createNote [] abTagsInput "id0" 0).1 ∧
    (createNote [] abTagsInput "id0" 0).2.tags.Nodup := by
  have h := tags_nodup_preserved_not_enforced [] abTagsInput "id0" "tid" 0 []
    (by intro r hr; exact absurd hr (List.not_mem_nil r))
  exact h.1 (by decide)

/-- C1 counterexample: the code filters by UTC calendar day, not the local
calendar day.  In timezone UTC+8 (offset 28800 s), with a note created at
timestamp 10000 (UTC day 0, local day 0) and the call made at timestamp
80000 (UTC day 0, but local day 1), getTodayNotes still returns the note,
while the local-calendar-day filter the claim describes returns nothing. -/
theorem getTodayNotes_not_local_day :
    getTodayNotes [⟨"n1", "t", 10000, none, none, none, none, none, none, none, none⟩]
        80000 ≠
      (getNotes [⟨"n1", "t", 10000, none, none, none, none, none, none, none, none⟩]
          none none).filter
        (fun n => localDay 28800 n.created_at == localDay 28800 80000) := by
  simp only [getTodayNotes, getNotes, sortNotesDesc, jsTruthyNum, List.map_cons,
    List.map_nil, List.mergeSort_singleton]
  decide

/-- C1 amended: getTodayNotes returns exactly the subset of getNotes whose
`created_at` falls on the same UTC calendar day as the call (the calendar
day of the ISO-8601 rendering both sides use), and a note created now is
included by an immediate getTodayNotes call on the updated table. -/
theorem getTodayNotes_utc_day_correct (db : List NoteRow) (now : Nat)
    (input : CreateNoteInput) (id : String) :
    (∀ n, n ∈ getTodayNotes db now ↔
      n ∈ getNotes db none none ∧ utcDay n.created_at = utcDay now) ∧
    (createNote db input id now).2 ∈ getTodayNotes (createNote db input id now).1 now := by
  constructor
  · intro n
    simp [getTodayNotes, getNotes, jsTruthyNum, List.mem_filter]
  · simp only [createNote]
    rw [← parse_createdRow]
    apply List.mem_filter.mpr
    constructor
    · rw [sortNotesDesc, List.mem_mergeSort, List.mem_map]
      exact ⟨createdRow input id now, by simp, rfl⟩
    · simp [parseNoteRow, createdRow]

/-- Helper: a prefix free of opening braces shifts the first-brace index. -/
theorem firstBraceIdx_append_free (pre : List Char) (hpre : ∀ c ∈ pre, c ≠ '\x7b')
    (t : List Char) : firstBraceIdx (pre ++ '\x7b' :: t) = some pre.length := by
  induction pre with
  | nil => simp [firstBraceIdx]
  | cons c rest ih =>
    have hc : c ≠ '\x7b' := hpre c (List.mem_cons_self c rest)
    have ih2 := ih (fun d hd => hpre d (List.mem_cons_of_mem c hd))
    simp only [List.cons_append, firstBraceIdx, List.append_eq]
    rw [if_neg (by simpa using hc), ih2]
    rfl

/-- Helper: a list without closing braces has no last-brace index. -/
theorem lastBraceIdx_none (post : List Char) (hpost : ∀ c ∈ post, c ≠ '\x7d') :
    lastBraceIdx post = none := by
  induction post with
  | nil => rfl
  | cons c rest ih =>
    have hc : c ≠ '\x7d' := hpost c (List.mem_cons_self c rest)
    simp only [lastBraceIdx, List.append_eq]
    rw [ih (fun d hd => hpost d (List.mem_cons_of_mem c hd))]
    simp [hc]

/-- Helper: a closing-brace-free suffix does not move the last-brace index. -/
theorem lastBraceIdx_append_none (l post : List Char) (hpost : lastBraceIdx post = none) :
    lastBraceIdx (l ++ post) = lastBraceIdx l := by
  induction l with
  | nil => simpa using hpost
  | cons c rest ih =>
    simp only [List.cons_append, lastBraceIdx, List.append_eq]
    rw [ih]

/-- Helper: a list ending in a closing brace has it as the last-brace index. -/
theorem lastBraceIdx_close (x : List Char) :
    lastBraceIdx (x ++ ['\x7d']) = some x.length := by
  induction x with
  | nil => rfl
  | cons c rest ih =>
    simp only [List.cons_append, lastBraceIdx, List.append_eq]
    rw [ih]
    rfl

/-- Helper: on a text that is brace-free prose around one brace-delimited
span, the greedy regex match returns exactly that span. -/
theorem greedyBraceMatch_of_shape (pre mid post : List Char)
    (hpre : ∀ c ∈ pre, c ≠ '\x7b' ∧ c ≠ '\x7d')
    (hpost : ∀ c ∈ post, c ≠ '\x7b' ∧ c ≠ '\x7d') :
    greedyBraceMatch (pre ++ ('\x7b' :: mid ++ ['\x7d']) ++ post) =
      some ('\x7b' :: mid ++ ['\x7d']) := by
  have h1 : firstBraceIdx (pre ++ ('\x7b' :: mid ++ ['\x7d']) ++ post) = some pre.length := by
    have h := firstBraceIdx_append_free pre (fun c hc => (hpre c hc).1) ((mid ++ ['\x7d']) ++ post)
    simpa [List.append_assoc] using h
  have h2 : lastBraceIdx (pre ++ ('\x7b' :: mid ++ ['\x7d']) ++ post) =
      some (pre.length + mid.length + 1) := by
    rw [lastBraceIdx_append_none _ _ (lastBraceIdx_none post (fun c hc => (hpost c hc).2))]
    have hshape : pre ++ ('\x7b' :: mid ++ ['\x7d']) = (pre ++ '\x7b' :: mid) ++ ['\x7d'] := by
      simp
    rw [hshape, lastBraceIdx_close]
    simp [List.length_append]
    omega
  unfold greedyBraceMatch
  rw [h1, h2]
  dsimp only
  rw [if_pos (by omega)]
  congr 1
  have hdrop : (pre ++ ('\x7b' :: mid ++ ['\x7d']) ++ post).drop pre.length =
      ('\x7b' :: mid ++ ['\x7d']) ++ post := by
    rw [List.append_assoc, List.drop_left]
  rw [hdrop]
  have hn : pre.length + mid.length + 1 + 1 - pre.length = ('\x7b' :: mid ++ ['\x7d']).length := by
    simp
    omega
  rw [hn, List.take_left]

/-- C3 counterexample: the first balanced JSON object in the reply parses
to `message "hi"`, but parseAssistantResponse matches greedily from the
first opening brace to the *last* closing brace, so JSON.parse fails on
the trailing prose and the whole raw text comes back as the message
instead of the embedded object's fields. -/
theorem parseAssistantResponse_not_first_balanced :
    firstBalancedObject c3Input.data = some c3Obj.data ∧
    jsonParseChars c3Obj.data =
      some (Json.obj [("message", Json.str "hi"), ("actions", Json.arr [])]) ∧
    parseAssistantResponse c3Input = { message := c3Input, actions := [] } ∧
    (parseAssistantResponse c3Input).message ≠ "hi" := by
  refine ⟨by decide, rfl, rfl, by decide⟩

/-- C3 amended: parseAssistantResponse extracts the greedy span from the
first opening brace to the last closing brace; when the provider reply is
brace-free prose around a single JSON object whose `message` is a nonempty
string and whose `actions` is an array, exactly that object's fields are
returned and the prose is ignored, and whenever the match is absent or the
matched span fails to parse, the raw text comes back as the message with
an empty actions list — the operation is total, never raising past this
boundary. -/
theorem parseAssistantResponse_greedy (pre mid post : List Char)
    (fields : List (String × Json)) (m : String) (acts : List Json)
    (hpre : ∀ c ∈ pre, c ≠ '\x7b' ∧ c ≠ '\x7d')
    (hpost : ∀ c ∈ post, c ≠ '\x7b' ∧ c ≠ '\x7d')
    (hparse : jsonParseChars ('\x7b' :: mid ++ ['\x7d']) = some (Json.obj fields))
    (hmsg : lookupField fields "message" = some (Json.str m)) (hm : m ≠ "")
    (hact : lookupField fields "actions" = some (Json.arr acts)) :
    parseAssistantResponse (String.mk (pre ++ ('\x7b' :: mid ++ ['\x7d']) ++ post)) =
      { message := m, actions := acts } ∧
    (∀ s : String, greedyBraceMatch s.data = none →
      parseAssistantResponse s = { message := s, actions := [] }) ∧
    (∀ s : String, ∀ mt, greedyBraceMatch s.data = some mt → jsonParseChars mt = none →
      parseAssistantResponse s = { message := s, actions := [] }) := by
  refine ⟨?_, ?_, ?_⟩
  · unfold parseAssistantResponse
    rw [show (String.mk (pre ++ ('\x7b' :: mid ++ ['\x7d']) ++ post)).data =
          pre ++ ('\x7b' :: mid ++ ['\x7d']) ++ post from rfl,
        greedyBraceMatch_of_shape pre mid post hpre hpost]
    dsimp only
    rw [hparse]
    dsimp only
    rw [hmsg, hact]
    dsimp only
    rw [if_neg hm]
  · intro s hg
    unfold parseAssistantResponse
    rw [hg]
  · intro s mt hg hp
    unfold parseAssistantResponse
    rw [hg]
    dsimp only
    rw [hp]

/-- Witness for C3 amended: prose on both sides of a single embedded
object yields exactly that object's message and actions. -/
theorem parseAssistantResponse_greedy_witness :
    parseAssistantResponse (String.mk ("Sure! ".data ++
      ('\x7b' :: "\"message\":\"hi\",\"actions\":[]".data ++ ['\x7d']) ++ " thanks".data)) =
      { message := "hi", actions := [] } :=
  (parseAssistantResponse_greedy "Sure! ".data "\"message\":\"hi\",\"actions\":[]".data
    " thanks".data [("message", Json.str "hi"), ("actions", Json.arr [])] "hi" []
    (by decide) (by decide) rfl rfl (by decide) rfl).1
